import Mathlib

/-!
Verification development for the MCP hub server manager
(`src/server-manager.ts` of mcp-hub-mcp).

The manager keeps a JS `Map<string, Client>` of connected upstream
servers and offers connect / disconnect / list / find / call
operations.  We embed the manager state as an association list with
unique keys (the JS `Map` invariant), external collaborators (the MCP
SDK client, the process environment, the URL parser, the JS RegExp
engine) as explicit oracle parameters, and thrown JS errors as
`Except String`.  Error message strings follow the source, with the
single-quote characters around interpolated names elided.
-/

namespace McpHub

/-- JSON-like opaque structured value (tool input schemas). -/
inductive Json where
  | null : Json
  | bool (b : Bool) : Json
  | num (n : Int) : Json
  | str (s : String) : Json
  | arr (xs : List Json) : Json
  | obj (fields : List (String × Json)) : Json

/-- A tool descriptor as reported by an upstream server.  Fields can be
absent in the raw JSON, hence `Option`. -/
structure ToolDescriptor where
  name : Option String
  description : Option String
  inputSchema : Option Json

/-- The `tools` field of a `listTools` response: either absent / not an
array (malformed), or an array of descriptors. -/
inductive ToolsField where
  | absent : ToolsField
  | tools (ts : List ToolDescriptor) : ToolsField

/-- Projection of a descriptor to name and description only, as built by
`listToolsInServer` / `findToolsInServer`. -/
structure ToolSummary where
  name : Option String
  description : Option String
deriving DecidableEq

/-- One entry of a `findTools` per-server result list: either a projected
tool or the in-band error marker object. -/
inductive FindEntry where
  | tool (name description : Option String) : FindEntry
  | failure (msg : String) : FindEntry
deriving DecidableEq

/-- The `searchIn` parameter of the find operations. -/
inductive SearchIn where
  | name : SearchIn
  | description : SearchIn
  | both : SearchIn
deriving DecidableEq

/-- The protocol client object stored in the registry
(`new Client({name, version})`). -/
structure Client where
  clientName : String
  version : String
deriving DecidableEq

/-- JS truthiness of an optional string: `undefined` and the empty string
are falsy. -/
def truthyOpt : Option String → Bool
  | none => false
  | some s => !s.isEmpty

/-- JS `Map.get`. -/
def mapGet {α : Type} (l : List (String × α)) (k : String) : Option α :=
  match l with
  | [] => none
  | (k2, v) :: rest => if k2 == k then some v else mapGet rest k

/-- JS `Map.has`. -/
def mapHas {α : Type} (l : List (String × α)) (k : String) : Bool :=
  l.any (fun p => p.1 == k)

/-- JS `Map.set`: replace in place if the key exists, else append
(insertion order preserved). -/
def mapSet {α : Type} (l : List (String × α)) (k : String) (v : α) :
    List (String × α) :=
  if mapHas l k then
    l.map (fun p => if p.1 == k then (k, v) else p)
  else
    l ++ [(k, v)]

/-- JS `Map.delete`. -/
def mapDelete {α : Type} (l : List (String × α)) (k : String) :
    List (String × α) :=
  l.filter (fun p => !(p.1 == k))

/-- Keys of the map in insertion order (`Array.from(map.keys())`). -/
def mapKeys {α : Type} (l : List (String × α)) : List String :=
  l.map Prod.fst

/-- Connection parameters (`ConnectMcpParams | McpServerConfig`), an
optional-field bag as consumed by `connectToServer`. -/
structure ConnectParams where
  type : Option String
  command : Option String
  args : Option (List String)
  env : Option (List (String × String))
  url : Option String
  headers : Option (List (String × String))
deriving DecidableEq

/-- A transport handle built by `connectToServer` before the handshake. -/
inductive Transport where
  | http (url : String) (headers : Option (List (String × String))) : Transport
  | stdio (command : String) (args : List String)
      (env : List (String × String)) : Transport
deriving DecidableEq

/-- Oracle for everything outside this repository: the ambient process
environment, the URL parser of the runtime, and the MCP SDK client
operations (handshake, list, close), keyed by server name. -/
structure World where
  processEnv : List (String × String)
  urlValid : String → Bool
  connectResult : String → Transport → Except String Unit
  listToolsResult : String → Except String ToolsField
  closeResult : String → Except String Unit

/-- The manager state: the `clients` map. -/
structure McpServerManager where
  clients : List (String × Client)
deriving DecidableEq

/-- JS `Object.assign(base, overlay)` on string maps: overlay entries
override base entries on key collision, new keys are appended. -/
def assignEnv (base overlay : List (String × String)) :
    List (String × String) :=
  overlay.foldl (fun acc p => mapSet acc p.1 p.2) base

/-- Embedding of `connectToServer(serverName, params)`.  The duplicate
name check comes first; then the transport type is inferred
(explicit `type`, else `command` present means stdio, else http);
then per-kind validation and transport construction; finally the
handshake, registering the client only on success. -/
def connectToServer (w : World) (m : McpServerManager)
    (serverName : String) (params : ConnectParams) :
    Except String McpServerManager :=
  if mapHas m.clients serverName then
    Except.error ("Already connected to server " ++ serverName ++ ".")
  else
    let transportType :=
      if truthyOpt params.type then params.type.getD ""
      else if truthyOpt params.command then "stdio" else "http"
    let tr : Except String Transport :=
      if transportType == "http" then
        if !truthyOpt params.url then
          Except.error ("HTTP server " ++ serverName ++ " requires a URL.")
        else if !w.urlValid (params.url.getD "") then
          Except.error ("Invalid URL: " ++ params.url.getD "")
        else
          Except.ok (Transport.http (params.url.getD "") params.headers)
      else
        if !truthyOpt params.command then
          Except.error ("Stdio server " ++ serverName ++ " requires a command.")
        else
          Except.ok (Transport.stdio (params.command.getD "")
            (params.args.getD [])
            (assignEnv w.processEnv (params.env.getD [])))
    match tr with
    | Except.error e => Except.error e
    | Except.ok transport =>
      let client : Client :=
        { clientName := "mcp-client-" ++ serverName, version := "1.0.0" }
      match w.connectResult serverName transport with
      | Except.ok _ =>
        Except.ok { clients := mapSet m.clients serverName client }
      | Except.error e =>
        Except.error
          ("Failed to connect to server " ++ serverName ++ ": " ++ e)

/-- Embedding of the private `getClient(serverName)`. -/
def getClient (m : McpServerManager) (serverName : String) :
    Except String Client :=
  match mapGet m.clients serverName with
  | none => Except.error ("Not connected to server " ++ serverName ++ ".")
  | some c => Except.ok c

/-- Embedding of `listTools(serverName)`: registry lookup, then the raw
upstream response (or transport failure) is passed through. -/
def listTools (w : World) (m : McpServerManager) (serverName : String) :
    Except String ToolsField :=
  match getClient m serverName with
  | Except.error e => Except.error e
  | Except.ok _ => w.listToolsResult serverName

/-- Embedding of `getConnectedServers()`. -/
def getConnectedServers (m : McpServerManager) : List String :=
  mapKeys m.clients

/-- Embedding of `listServers()`. -/
def listServers (m : McpServerManager) : List String :=
  getConnectedServers m

/-- A compiled JS regular expression, abstracted to its observable
behaviour: `execFrom s i` is the first match in `s` starting at
position `i` or later, as a (start, end) pair of positions, and
`global` records whether the `g` flag was set. -/
structure JsRegex where
  execFrom : String → Nat → Option (Nat × Nat)
  global : Bool

/-- The RegExp constructor of the runtime: compiles a pattern with the
given flag string, or throws a SyntaxError. -/
structure RegexEngine where
  compile : String → String → Except String JsRegex

/-- A RegExp object together with its mutable `lastIndex` property. -/
structure RegexMut where
  re : JsRegex
  lastIndex : Nat

/-- JS `regex.test(s)`.  With the `g` flag the search starts at
`lastIndex`, which is advanced past the match on success and reset to
0 on failure; without `g` the search starts at 0 and `lastIndex` is
untouched. -/
def regexTest (r : RegexMut) (s : String) : Bool × RegexMut :=
  if r.re.global then
    match r.re.execFrom s r.lastIndex with
    | some pe => (true, { r with lastIndex := pe.2 })
    | none => (false, { r with lastIndex := 0 })
  else
    (match r.re.execFrom s 0 with
     | some _ => true
     | none => false, r)

/-- The filter predicate of `findToolsInServer` / `findTools`:
`nameMatch` tests the name when `searchIn` is not `description` and
the name is truthy, then `descriptionMatch` tests the description
when `searchIn` is not `name` and it is truthy; both tests run (no
short circuit between them), each mutating `lastIndex`. -/
def matchTool (si : SearchIn) (t : ToolDescriptor) (r : RegexMut) :
    Bool × RegexMut :=
  let nm : Bool × RegexMut :=
    if si != SearchIn.description && truthyOpt t.name then
      regexTest r (t.name.getD "")
    else (false, r)
  let dm : Bool × RegexMut :=
    if si != SearchIn.name && truthyOpt t.description then
      regexTest nm.2 (t.description.getD "")
    else (false, nm.2)
  (nm.1 || dm.1, dm.2)

/-- JS `Array.prototype.filter` with the predicate above, threading the
shared RegExp object through the elements in order. -/
def filterToolsSt (si : SearchIn) :
    List ToolDescriptor → RegexMut → List ToolDescriptor × RegexMut
  | [], r => ([], r)
  | t :: ts, r =>
    let mt := matchTool si t r
    let rest := filterToolsSt si ts mt.2
    (if mt.1 then t :: rest.1 else rest.1, rest.2)

/-- Projection used by the listing and find operations. -/
def toSummary (t : ToolDescriptor) : ToolSummary :=
  { name := t.name, description := t.description }

/-- Embedding of `getTool(serverName, toolName)`: live fetch, error when
the tool collection is malformed, then exact (`===`) name lookup. -/
def getTool (w : World) (m : McpServerManager)
    (serverName toolName : String) : Except String ToolDescriptor :=
  match getClient m serverName with
  | Except.error e => Except.error e
  | Except.ok _ =>
    match w.listToolsResult serverName with
    | Except.error e => Except.error e
    | Except.ok ToolsField.absent =>
      Except.error ("No tools found on server " ++ serverName)
    | Except.ok (ToolsField.tools ts) =>
      match ts.find? (fun t => t.name == some toolName) with
      | none =>
        Except.error
          ("Tool " ++ toolName ++ " not found on server " ++ serverName)
      | some t => Except.ok t

/-- Embedding of `listToolsInServer(serverName)`: a malformed tool
collection yields the empty list, otherwise the list is projected to
name and description. -/
def listToolsInServer (w : World) (m : McpServerManager)
    (serverName : String) : Except String (List ToolSummary) :=
  match getClient m serverName with
  | Except.error e => Except.error e
  | Except.ok _ =>
    match w.listToolsResult serverName with
    | Except.error e => Except.error e
    | Except.ok ToolsField.absent => Except.ok []
    | Except.ok (ToolsField.tools ts) => Except.ok (ts.map toSummary)

/-- Embedding of `findToolsInServer(serverName, pattern, searchIn,
caseSensitive)`.  The flags are `"g"` (case sensitive) or `"gi"`, the
RegExp is compiled after the listing (a compile failure propagates
uncaught), and the filter reuses the single global RegExp object
across all `test` calls. -/
def findToolsInServer (eng : RegexEngine) (w : World)
    (m : McpServerManager) (serverName pattern : String)
    (si : SearchIn) (caseSensitive : Bool) :
    Except String (List ToolSummary) :=
  match getClient m serverName with
  | Except.error e => Except.error e
  | Except.ok _ =>
    match w.listToolsResult serverName with
    | Except.error e => Except.error e
    | Except.ok ToolsField.absent => Except.ok []
    | Except.ok (ToolsField.tools ts) =>
      let flags := if caseSensitive then "g" else "gi"
      match eng.compile pattern flags with
      | Except.error e => Except.error e
      | Except.ok re =>
        let matched := filterToolsSt si ts { re := re, lastIndex := 0 }
        Except.ok (matched.1.map toSummary)

/-- The per-server loop of `findTools`: for each server, a lookup or
list failure is caught and turned into a single-element in-band error
entry, a malformed collection contributes nothing, and matches are
recorded only when non-empty; the one compiled RegExp object is
threaded through every server. -/
def findToolsLoop (w : World) (m : McpServerManager) (si : SearchIn) :
    List String → RegexMut → List (String × List FindEntry)
  | [], _ => []
  | s :: rest, r =>
    match listTools w m s with
    | Except.error e =>
      (s, [FindEntry.failure ("Failed to search tools: " ++ e)]) ::
        findToolsLoop w m si rest r
    | Except.ok ToolsField.absent => findToolsLoop w m si rest r
    | Except.ok (ToolsField.tools ts) =>
      let fr := filterToolsSt si ts r
      let matched := fr.1.map (fun t => FindEntry.tool t.name t.description)
      if matched.isEmpty then findToolsLoop w m si rest fr.2
      else (s, matched) :: findToolsLoop w m si rest fr.2

/-- Embedding of `findTools(pattern, options)`: an empty registry
returns the empty result before the pattern is compiled; the RegExp
is compiled once with flags `""` or `"i"` (a failure aborts the whole
call with the invalid-pattern error); then the per-server loop runs. -/
def findTools (eng : RegexEngine) (w : World) (m : McpServerManager)
    (pattern : String) (si : SearchIn) (caseSensitive : Bool) :
    Except String (List (String × List FindEntry)) :=
  let servers := getConnectedServers m
  if servers.isEmpty then Except.ok []
  else
    match eng.compile pattern (if caseSensitive then "" else "i") with
    | Except.error e =>
      Except.error ("Invalid regex pattern: " ++ e)
    | Except.ok re =>
      Except.ok (findToolsLoop w m si servers { re := re, lastIndex := 0 })

/-- Embedding of `disconnectServer(serverName)`: lookup, close, and
delete from the registry only after the close succeeded; a close
failure is rethrown and the entry stays (in this functional embedding
an error result carries no state change). -/
def disconnectServer (w : World) (m : McpServerManager)
    (serverName : String) : Except String McpServerManager :=
  match mapGet m.clients serverName with
  | none => Except.error ("Not connected to server " ++ serverName ++ ".")
  | some _ =>
    match w.closeResult serverName with
    | Except.ok _ => Except.ok { clients := mapDelete m.clients serverName }
    | Except.error e =>
      Except.error
        ("Failed to disconnect from server " ++ serverName ++ ": " ++ e)

/-- The sequential loop of `disconnectAll`: fail-fast fold over a list
of names. -/
def disconnectSeq (w : World) :
    List String → McpServerManager → Except String McpServerManager
  | [], m => Except.ok m
  | n :: rest, m =>
    match disconnectServer w m n with
    | Except.error e => Except.error e
    | Except.ok m2 => disconnectSeq w rest m2

/-- Embedding of `disconnectAll()`: snapshot of the connected names,
then the fail-fast sequential loop. -/
def disconnectAll (w : World) (m : McpServerManager) :
    Except String McpServerManager :=
  disconnectSeq w (getConnectedServers m) m

/-- Character-level prefix test for the literal regex engine. -/
def startsWithChars : List Char → List Char → Bool
  | [], _ => true
  | _ :: _, [] => false
  | p :: ps, c :: cs => p == c && startsWithChars ps cs

/-- First index at or after `idx` where `pat` occurs in the remaining
text (positions counted from `idx`). -/
def findSubAux (pat : List Char) : List Char → Nat → Option Nat
  | [], idx => if startsWithChars pat [] then some idx else none
  | c :: cs, idx =>
    if startsWithChars pat (c :: cs) then some idx
    else findSubAux pat cs (idx + 1)

/-- Case folding used by the `i` flag (ASCII lower-casing). -/
def foldChar (ci : Bool) (c : Char) : Char :=
  if ci then c.toLower else c

/-- Match semantics of a regex that is a literal string: first
occurrence of `pat` in `s` at or after `start`, case-folded when `ci`
is set. -/
def literalExecFrom (pat : String) (ci : Bool) (s : String) (start : Nat) :
    Option (Nat × Nat) :=
  let p := pat.toList.map (foldChar ci)
  let t := (s.toList.map (foldChar ci)).drop start
  match findSubAux p t start with
  | some i => some (i, i + p.length)
  | none => none

/-- Characters the literal engine refuses (regex metacharacters). -/
def isRegexMeta (c : Char) : Bool :=
  c == '(' || c == ')' || c == '[' || c == ']' || c == '\x7b' ||
  c == '\x7d' || c == '|' || c == '*' || c == '+' || c == '?' ||
  c == '^' || c == '$' || c == '.' || c == '\\'

/-- A concrete instance of the RegExp engine covering literal patterns:
patterns with a metacharacter are rejected (in particular the
genuinely invalid pattern consisting of a lone open parenthesis),
literal patterns get substring-search semantics honouring the `i`
and `g` flags.  This instantiates the engine oracle at inputs where
its behaviour is forced by the JS RegExp semantics. -/
def literalEngine : RegexEngine where
  compile pat flags :=
    if pat.toList.any isRegexMeta then
      Except.error ("Unsupported pattern: " ++ pat)
    else
      Except.ok
        { execFrom := literalExecFrom pat (flags.toList.contains 'i')
          global := flags.toList.contains 'g' }

/-- Forgets the input schema of a descriptor (for stating that the find
operations are insensitive to schemas). -/
def stripSchema (t : ToolDescriptor) : ToolDescriptor :=
  { name := t.name, description := t.description, inputSchema := none }

/-- Forgets all input schemas in a tools field. -/
def stripField : ToolsField → ToolsField
  | ToolsField.absent => ToolsField.absent
  | ToolsField.tools ts => ToolsField.tools (ts.map stripSchema)

/-- Forgets all input schemas in a listTools outcome. -/
def stripResp (r : Except String ToolsField) : Except String ToolsField :=
  match r with
  | Except.error e => Except.error e
  | Except.ok f => Except.ok (stripField f)

/-- What the `findTools` loop records for one server when the compiled
regex is stateless: an in-band single-element error entry on a lookup
or listing failure, nothing on a malformed collection or when no tool
matches, and the projected matches otherwise. -/
def serverFindSpec (w : World) (m : McpServerManager) (si : SearchIn)
    (re : JsRegex) (s : String) : Option (List FindEntry) :=
  match listTools w m s with
  | Except.error e =>
    some [FindEntry.failure ("Failed to search tools: " ++ e)]
  | Except.ok ToolsField.absent => none
  | Except.ok (ToolsField.tools ts) =>
    let matched := (filterToolsSt si ts { re := re, lastIndex := 0 }).1.map
      (fun t => FindEntry.tool t.name t.description)
    if matched.isEmpty then none else some matched

/-- The client object `connectToServer` builds for a server name. -/
def clientFor (n : String) : Client :=
  { clientName := "mcp-client-" ++ n, version := "1.0.0" }

/-- Tool descriptor whose name contains the pattern `file` at the end. -/
def readFileTool : ToolDescriptor :=
  { name := some "ReadFile", description := none, inputSchema := none }

/-- A second descriptor whose name also contains `file` (case folded). -/
def writeFileTool : ToolDescriptor :=
  { name := some "WriteFile", description := none, inputSchema := none }

/-- Descriptor with a given input schema, for schema-sensitivity tests. -/
def fileToolWith (schema : Option Json) : ToolDescriptor :=
  { name := some "readFile", description := some "Read a file",
    inputSchema := schema }

/-- Baseline world: empty environment, all URLs valid, handshakes and
closes succeed, every server reports an empty tool list. -/
def baseWorld : World where
  processEnv := []
  urlValid := fun _ => true
  connectResult := fun _ _ => Except.ok ()
  listToolsResult := fun _ => Except.ok (ToolsField.tools [])
  closeResult := fun _ => Except.ok ()

/-- World whose single upstream reports the two file tools. -/
def worldTwoTools : World :=
  { baseWorld with
    listToolsResult := fun _ =>
      Except.ok (ToolsField.tools [readFileTool, writeFileTool]) }

/-- World reporting one tool whose schema is the string `A`. -/
def worldSchemaA : World :=
  { baseWorld with
    listToolsResult := fun _ =>
      Except.ok (ToolsField.tools [fileToolWith (some (Json.str "A"))]) }

/-- World identical to `worldSchemaA` except for the reported schema. -/
def worldSchemaB : World :=
  { baseWorld with
    listToolsResult := fun _ =>
      Except.ok (ToolsField.tools [fileToolWith (some (Json.str "B"))]) }

/-- World whose upstream response is malformed (no tools array). -/
def worldMalformed : World :=
  { baseWorld with
    listToolsResult := fun _ => Except.ok ToolsField.absent }

/-- World where server A lists the two file tools and every other
server's listing fails. -/
def worldMixed : World :=
  { baseWorld with
    listToolsResult := fun s =>
      if s == "A" then
        Except.ok (ToolsField.tools [readFileTool, writeFileTool])
      else Except.error "boom" }

/-- World where closing server B fails and every other close succeeds. -/
def worldCloseB : World :=
  { baseWorld with
    closeResult := fun n =>
      if n == "B" then Except.error "boom" else Except.ok () }

/-- World agreeing with `worldCloseB` on A and B but failing on C, to
exhibit that names after the first failure are never consulted. -/
def worldCloseBC : World :=
  { baseWorld with
    closeResult := fun n =>
      if n == "B" then Except.error "boom"
      else if n == "C" then Except.error "other" else Except.ok () }

/-- Registry with the single server `srv`. -/
def mgrOne : McpServerManager := { clients := [("srv", clientFor "srv")] }

/-- Registry with the single server `A`. -/
def mgrA : McpServerManager := { clients := [("A", clientFor "A")] }

/-- Registry with servers `A` and `B`. -/
def mgrAB : McpServerManager :=
  { clients := [("A", clientFor "A"), ("B", clientFor "B")] }

/-- Registry with servers `A`, `B` and `C`. -/
def mgrABC : McpServerManager :=
  { clients :=
      [("A", clientFor "A"), ("B", clientFor "B"), ("C", clientFor "C")] }

/-- Registry with servers `B` and `C` (state after disconnecting `A`). -/
def mgrBC : McpServerManager :=
  { clients := [("B", clientFor "B"), ("C", clientFor "C")] }

/-- Stdio connection parameters with a command. -/
def stdioParams : ConnectParams :=
  { type := none, command := some "npx", args := none, env := none,
    url := none, headers := none }

/-- Invalid parameters: explicit http kind but no URL. -/
def badHttpParams : ConnectParams :=
  { type := some "http", command := none, args := none, env := none,
    url := none, headers := none }

/-- The compiled form of the literal pattern `file` with the `i` flag
(and no `g` flag), as `findTools` compiles it. -/
def reFile : JsRegex :=
  { execFrom := literalExecFrom "file" true, global := false }

theorem mapHas_append_self {α : Type} (l : List (String × α)) (k : String)
    (v : α) : mapHas (l ++ [(k, v)]) k = true := by
  simp [mapHas]

theorem mapSet_of_not_has {α : Type} {l : List (String × α)} {k : String}
    (v : α) (h : mapHas l k = false) : mapSet l k v = l ++ [(k, v)] := by
  simp [mapSet, h]

theorem count_zero_of_not_has {α : Type} {l : List (String × α)}
    {k : String} (h : mapHas l k = false) : (mapKeys l).count k = 0 := by
  rw [List.count_eq_zero]
  intro hmem
  rw [mapKeys, List.mem_map] at hmem
  obtain ⟨p, hp, hpk⟩ := hmem
  have htrue : mapHas l k = true := by
    rw [mapHas]
    exact List.any_eq_true.mpr ⟨p, hp, by simp [hpk]⟩
  rw [h] at htrue
  exact Bool.false_ne_true htrue

theorem mapGet_isSome_of_has {α : Type} {l : List (String × α)}
    {k : String} (h : mapHas l k = true) : ∃ v, mapGet l k = some v := by
  induction l with
  | nil => simp [mapHas] at h
  | cons p rest ih =>
    obtain ⟨k2, v⟩ := p
    by_cases hp : (k2 == k) = true
    · exact ⟨v, by simp [mapGet, hp]⟩
    · rw [Bool.not_eq_true] at hp
      have hrest : mapHas rest k = true := by
        rw [mapHas] at h
        simp only [List.any_cons, hp] at h
        simpa [mapHas] using h
      obtain ⟨v2, hv2⟩ := ih hrest
      exact ⟨v2, by simp [mapGet, hp, hv2]⟩

/-- C1: after a successful `connectToServer(n, params)`, the name `n`
appears in the connected server list exactly once, and a second
`connectToServer(n, ...)` fails with the already-connected error for
any parameters and any behaviour of the external collaborators; in
this functional embedding an error result carries no successor state,
so the existing session and the registry map are untouched by the
failed second call. -/
theorem connect_registers_once (w : World) (m : McpServerManager)
    (n : String) (p : ConnectParams) (m2 : McpServerManager)
    (h : connectToServer w m n p = Except.ok m2) :
    (mapKeys m2.clients).count n = 1 ∧
    ∀ (w2 : World) (p2 : ConnectParams),
      connectToServer w2 m2 n p2 =
        Except.error ("Already connected to server " ++ n ++ ".") := by
  by_cases hhas : mapHas m.clients n = true
  · simp [connectToServer, hhas] at h
  · rw [Bool.not_eq_true] at hhas
    rw [connectToServer] at h
    rw [hhas] at h
    simp only [Bool.false_eq_true, if_false] at h
    split at h
    · exact absurd h (by simp)
    · split at h
      · rename_i transport hw
        simp only [Except.ok.injEq] at h
        subst h
        rw [mapSet_of_not_has _ hhas]
        constructor
        · have h0 : List.count n (List.map Prod.fst m.clients) = 0 :=
            count_zero_of_not_has hhas
          simp [mapKeys, List.count_append, h0]
        · intro w2 p2
          rw [connectToServer]
          simp [mapHas_append_self]
      · exact absurd h (by simp)

/-- C1 witness: connecting `A` to the empty registry with stdio
parameters in the baseline world succeeds and yields a registry in
which `A` is listed exactly once and a second connect (here with the
invalid http parameters) reports the already-connected error. -/
theorem connect_registers_once_witness :
    (mapKeys ({ clients := [("A", clientFor "A")] } :
        McpServerManager).clients).count "A" = 1 ∧
    ∀ (w2 : World) (p2 : ConnectParams),
      connectToServer w2 { clients := [("A", clientFor "A")] } "A" p2 =
        Except.error ("Already connected to server " ++ "A" ++ ".") :=
  connect_registers_once baseWorld { clients := [] } "A" stdioParams
    { clients := [("A", clientFor "A")] } rfl

/-- C10: when the name is already connected, `connectToServer` raises
the already-connected error first, for every parameter bag — in
particular for parameters that are invalid for their kind — and no
validation error is produced; the error result leaves the registry
unchanged in this functional embedding. -/
theorem connect_duplicate_checked_first (w : World) (m : McpServerManager)
    (n : String) (p : ConnectParams) (h : mapHas m.clients n = true) :
    connectToServer w m n p =
      Except.error ("Already connected to server " ++ n ++ ".") := by
  simp [connectToServer, h]

/-- C10 witness: connecting the already-present name `A` with an http
parameter bag that lacks its required URL still reports the
already-connected error, not the URL validation error. -/
theorem connect_duplicate_checked_first_witness :
    mapHas mgrA.clients "A" = true ∧
    connectToServer baseWorld mgrA "A" badHttpParams =
      Except.error ("Already connected to server " ++ "A" ++ ".") :=
  ⟨rfl, connect_duplicate_checked_first baseWorld mgrA "A" badHttpParams rfl⟩

/-- C9: for a connected name, `disconnectServer` removes the registry
entry exactly when the underlying close succeeds; when close fails it
raises the disconnect error and, the embedding being functional, the
error result leaves the registry map unchanged (the session remains). -/
theorem disconnectServer_remove_after_close (w : World)
    (m : McpServerManager) (n : String) (c : Client)
    (h : mapGet m.clients n = some c) :
    (w.closeResult n = Except.ok () →
      disconnectServer w m n =
        Except.ok { clients := mapDelete m.clients n }) ∧
    (∀ e, w.closeResult n = Except.error e →
      disconnectServer w m n =
        Except.error
          ("Failed to disconnect from server " ++ n ++ ": " ++ e)) := by
  constructor
  · intro hc
    simp [disconnectServer, h, hc]
  · intro e hc
    simp [disconnectServer, h, hc]

/-- C9 witness: disconnecting `A` succeeds and empties the registry in
the baseline world, while in the world where closing `A` is `B`-like
failing the same call reports the disconnect error. -/
theorem disconnectServer_remove_after_close_witness :
    disconnectServer baseWorld mgrA "A" =
      Except.ok { clients := [] } ∧
    disconnectServer worldCloseB mgrAB "B" =
      Except.error
        ("Failed to disconnect from server " ++ "B" ++ ": " ++ "boom") :=
  ⟨(disconnectServer_remove_after_close baseWorld mgrA "A"
      (clientFor "A") rfl).1 rfl,
   (disconnectServer_remove_after_close worldCloseB mgrAB "B"
      (clientFor "B") rfl).2 "boom" rfl⟩

theorem disconnectSeq_append (w : World) (l1 l2 : List String)
    (m : McpServerManager) :
    disconnectSeq w (l1 ++ l2) m =
      match disconnectSeq w l1 m with
      | Except.error e => Except.error e
      | Except.ok m2 => disconnectSeq w l2 m2 := by
  induction l1 generalizing m with
  | nil => simp [disconnectSeq]
  | cons n rest ih =>
    simp only [List.cons_append, disconnectSeq]
    cases hd : disconnectServer w m n with
    | error e => simp
    | ok m2 => simp [ih]

theorem disconnectSeq_congr (w w2 : World) (names : List String)
    (m : McpServerManager)
    (hagree : ∀ n ∈ names, w2.closeResult n = w.closeResult n) :
    disconnectSeq w2 names m = disconnectSeq w names m := by
  induction names generalizing m with
  | nil => rfl
  | cons n rest ih =>
    have hn : w2.closeResult n = w.closeResult n := hagree n (by simp)
    have hrest : ∀ k ∈ rest, w2.closeResult k = w.closeResult k :=
      fun k hk => hagree k (by simp [hk])
    simp only [disconnectSeq]
    have hd : disconnectServer w2 m n = disconnectServer w m n := by
      rw [disconnectServer, disconnectServer, hn]
    rw [hd]
    cases hE : disconnectServer w m n with
    | error e => rfl
    | ok m2 => exact ih m2 hrest

/-- C8: `disconnectAll` iterates the snapshot of connected names in
order and is fail-fast: when the names split as `pre ++ b :: post`,
the disconnects over `pre` succeed, and closing `b` fails, the whole
call propagates the failure for `b`; moreover the same outcome holds
for every world that merely agrees on the closes of `pre` and `b`,
so the closes of the names in `post` are never attempted. -/
theorem disconnectAll_failfast (w w2 : World) (m m1 : McpServerManager)
    (pre : List String) (b : String) (post : List String) (e : String)
    (hsnap : getConnectedServers m = pre ++ b :: post)
    (hpre : disconnectSeq w pre m = Except.ok m1)
    (hconn : mapHas m1.clients b = true)
    (hcb : w.closeResult b = Except.error e)
    (hagree : ∀ n ∈ pre, w2.closeResult n = w.closeResult n)
    (hcb2 : w2.closeResult b = Except.error e) :
    disconnectAll w m =
      Except.error
        ("Failed to disconnect from server " ++ b ++ ": " ++ e) ∧
    disconnectAll w2 m =
      Except.error
        ("Failed to disconnect from server " ++ b ++ ": " ++ e) := by
  obtain ⟨c, hc⟩ := mapGet_isSome_of_has hconn
  have hderr : disconnectServer w m1 b =
      Except.error
        ("Failed to disconnect from server " ++ b ++ ": " ++ e) := by
    simp [disconnectServer, hc, hcb]
  have hderr2 : disconnectServer w2 m1 b =
      Except.error
        ("Failed to disconnect from server " ++ b ++ ": " ++ e) := by
    simp [disconnectServer, hc, hcb2]
  have hpre2 : disconnectSeq w2 pre m = Except.ok m1 := by
    rw [disconnectSeq_congr w w2 pre m hagree, hpre]
  constructor
  · rw [disconnectAll, hsnap, disconnectSeq_append, hpre]
    simp only [disconnectSeq, hderr]
  · rw [disconnectAll, hsnap, disconnectSeq_append, hpre2]
    simp only [disconnectSeq, hderr2]

/-- C8 witness: with servers `A`, `B`, `C`, close failing on `B`,
`disconnectAll` propagates the failure on `B` after disconnecting
`A`; the world that additionally fails on the later name `C` gives
the identical outcome, showing `C` is never closed. -/
theorem disconnectAll_failfast_witness :
    disconnectAll worldCloseB mgrABC =
      Except.error
        ("Failed to disconnect from server " ++ "B" ++ ": " ++ "boom") ∧
    disconnectAll worldCloseBC mgrABC =
      Except.error
        ("Failed to disconnect from server " ++ "B" ++ ": " ++ "boom") :=
  disconnectAll_failfast worldCloseB worldCloseBC mgrABC mgrBC
    ["A"] "B" ["C"] "boom" rfl rfl rfl rfl
    (by
      intro n hn
      simp only [List.mem_singleton] at hn
      subst hn
      rfl)
    rfl

/-- C2: evaluation of the code at the failing input.  Both tool names
`ReadFile` and `WriteFile` contain the pattern `file` case
insensitively — the second conjunct shows a fresh scan of
`WriteFile` matches at positions 5..9 — yet `findToolsInServer`
returns only `ReadFile`: the RegExp is compiled with the `g` flag, so
its `lastIndex` stays at 8 after matching `ReadFile` and the stateful
`test` of `WriteFile` scans only from position 8 and misses. -/
theorem findToolsInServer_gflag_stateful :
    findToolsInServer literalEngine worldTwoTools mgrOne "srv" "file"
      SearchIn.name false =
      Except.ok [{ name := some "ReadFile", description := none }] ∧
    literalExecFrom "file" true "WriteFile" 0 = some (5, 9) :=
  ⟨rfl, rfl⟩

/-- C3 counterexample: with zero connected servers, `findTools` on the
invalid pattern consisting of a lone open parenthesis returns the
empty result successfully instead of failing with the
invalid-pattern error — the zero-server early return precedes
pattern compilation. -/
theorem findTools_zero_servers_counterexample :
    literalEngine.compile "(" "i" =
      Except.error ("Unsupported pattern: " ++ "(") ∧
    findTools literalEngine baseWorld { clients := [] } "("
      SearchIn.both false = Except.ok [] :=
  ⟨rfl, rfl⟩

/-- C3 amended: for every pattern whose compilation fails and every
registry with at least one connected server, `findTools` fails with
the invalid-pattern error; the conclusion holds for every world, so
no server is queried and no per-server result or error entry is
produced. -/
theorem findTools_invalid_pattern_fails (eng : RegexEngine) (w : World)
    (m : McpServerManager) (pattern : String) (si : SearchIn)
    (cs : Bool) (e : String) (hne : m.clients ≠ [])
    (hc : eng.compile pattern (if cs then "" else "i") =
      Except.error e) :
    findTools eng w m pattern si cs =
      Except.error ("Invalid regex pattern: " ++ e) := by
  cases hM : m.clients with
  | nil => exact absurd hM hne
  | cons p rest =>
    simp [findTools, getConnectedServers, mapKeys, hM, hc]

/-- C3 amended witness: with the single server `srv` connected, the
invalid pattern of a lone open parenthesis makes `findTools` fail
with the invalid-pattern error. -/
theorem findTools_invalid_pattern_fails_witness :
    mgrOne.clients ≠ [] ∧
    findTools literalEngine baseWorld mgrOne "(" SearchIn.both false =
      Except.error
        ("Invalid regex pattern: " ++ ("Unsupported pattern: " ++ "(")) :=
  ⟨by simp [mgrOne],
   findTools_invalid_pattern_fails literalEngine baseWorld mgrOne "("
     SearchIn.both false ("Unsupported pattern: " ++ "(")
     (by simp [mgrOne]) rfl⟩

/-- C4 counterexample: two worlds that report the same tool name and
description but different input schemas give identical
`listToolsInServer` results, and that result carries only name and
description — the returned entries do not carry the input schema
reported by the upstream. -/
theorem listToolsInServer_drops_schema_counterexample :
    worldSchemaA.listToolsResult "srv" ≠ worldSchemaB.listToolsResult "srv" ∧
    listToolsInServer worldSchemaA mgrOne "srv" =
      listToolsInServer worldSchemaB mgrOne "srv" ∧
    listToolsInServer worldSchemaA mgrOne "srv" =
      Except.ok [{ name := some "readFile",
                   description := some "Read a file" }] := by
  refine ⟨?_, rfl, rfl⟩
  intro h
  simp [worldSchemaA, worldSchemaB, baseWorld, fileToolWith] at h

/-- C4 amended: `listToolsInServer` returns the upstream descriptor
list projected to name and description only (the input schema is
dropped), preserving order and length. -/
theorem listToolsInServer_projects (w : World) (m : McpServerManager)
    (n : String) (c : Client) (ts : List ToolDescriptor)
    (hc : mapGet m.clients n = some c)
    (hr : w.listToolsResult n = Except.ok (ToolsField.tools ts)) :
    listToolsInServer w m n = Except.ok (ts.map toSummary) := by
  simp [listToolsInServer, getClient, hc, hr]

/-- C4 amended witness: the connected server `srv` reporting one tool
with a schema yields exactly the name-and-description projection. -/
theorem listToolsInServer_projects_witness :
    listToolsInServer worldSchemaA mgrOne "srv" =
      Except.ok
        [{ name := some "readFile", description := some "Read a file" }] :=
  listToolsInServer_projects worldSchemaA mgrOne "srv" (clientFor "srv")
    [fileToolWith (some (Json.str "A"))] rfl rfl

/-- C5 counterexample: for a connected server whose upstream response
is malformed (the tools collection is absent), `listToolsInServer`
returns the empty list successfully instead of raising an upstream
error — the malformed case is indistinguishable from zero tools. -/
theorem listToolsInServer_malformed_counterexample :
    worldMalformed.listToolsResult "srv" = Except.ok ToolsField.absent ∧
    listToolsInServer worldMalformed mgrOne "srv" = Except.ok [] :=
  ⟨rfl, rfl⟩

/-- C5 amended: for a connected server, a malformed upstream response
(missing or non-sequence tool collection) yields the empty list, the
same result as an upstream reporting zero tools — neither is an
error; only a failure of the list call itself (transport level)
propagates as an error. -/
theorem listToolsInServer_malformed_behavior (w : World)
    (m : McpServerManager) (n : String) (c : Client)
    (hc : mapGet m.clients n = some c) :
    (w.listToolsResult n = Except.ok ToolsField.absent →
      listToolsInServer w m n = Except.ok []) ∧
    (w.listToolsResult n = Except.ok (ToolsField.tools []) →
      listToolsInServer w m n = Except.ok []) ∧
    (∀ e, w.listToolsResult n = Except.error e →
      listToolsInServer w m n = Except.error e) := by
  refine ⟨?_, ?_, ?_⟩
  · intro hr
    simp [listToolsInServer, getClient, hc, hr]
  · intro hr
    simp [listToolsInServer, getClient, hc, hr]
  · intro e hr
    simp [listToolsInServer, getClient, hc, hr]

/-- C5 amended witness: the malformed upstream gives the empty list for
`srv`, and the failing upstream `B` of the mixed world propagates
its transport error. -/
theorem listToolsInServer_malformed_behavior_witness :
    listToolsInServer worldMalformed mgrOne "srv" = Except.ok [] ∧
    listToolsInServer worldMixed mgrAB "B" = Except.error "boom" :=
  ⟨(listToolsInServer_malformed_behavior worldMalformed mgrOne "srv"
      (clientFor "srv") rfl).1 rfl,
   (listToolsInServer_malformed_behavior worldMixed mgrAB "B"
      (clientFor "B") rfl).2.2 "boom" rfl⟩

theorem regexTest_nonglobal (re : JsRegex) (li : Nat)
    (h : re.global = false) (s : String) :
    (regexTest { re := re, lastIndex := li } s).2 =
      { re := re, lastIndex := li } := by
  simp [regexTest, h]

theorem matchTool_nonglobal (re : JsRegex) (li : Nat) (si : SearchIn)
    (t : ToolDescriptor) (h : re.global = false) :
    (matchTool si t { re := re, lastIndex := li }).2 =
      { re := re, lastIndex := li } := by
  unfold matchTool
  by_cases h1 : (si != SearchIn.description && truthyOpt t.name) = true <;>
    by_cases h2 :
        (si != SearchIn.name && truthyOpt t.description) = true <;>
      simp [h1, h2, regexTest_nonglobal re li h]

theorem filterToolsSt_nonglobal (re : JsRegex) (li : Nat) (si : SearchIn)
    (h : re.global = false) :
    ∀ ts : List ToolDescriptor,
    (filterToolsSt si ts { re := re, lastIndex := li }).2 =
      { re := re, lastIndex := li } := by
  intro ts
  induction ts with
  | nil => rfl
  | cons t ts ih =>
    simp only [filterToolsSt, matchTool_nonglobal re li si t h]
    exact ih

theorem findToolsLoop_nonglobal (w : World) (m : McpServerManager)
    (si : SearchIn) (re : JsRegex) (h : re.global = false) :
    ∀ names : List String,
    findToolsLoop w m si names { re := re, lastIndex := 0 } =
      names.filterMap
        (fun s => (serverFindSpec w m si re s).map (fun l => (s, l))) := by
  intro names
  induction names with
  | nil => rfl
  | cons s rest ih =>
    cases hL : listTools w m s with
    | error e =>
      have hhead : serverFindSpec w m si re s =
          some [FindEntry.failure ("Failed to search tools: " ++ e)] := by
        simp [serverFindSpec, hL]
      simp [findToolsLoop, hL, List.filterMap_cons, hhead, ih]
    | ok tf =>
      cases tf with
      | absent =>
        have hhead : serverFindSpec w m si re s = none := by
          simp [serverFindSpec, hL]
        simp [findToolsLoop, hL, List.filterMap_cons, hhead, ih]
      | tools ts =>
        have h2 := filterToolsSt_nonglobal re 0 si h ts
        by_cases hemp :
            (((filterToolsSt si ts { re := re, lastIndex := 0 }).1.map
              (fun t => FindEntry.tool t.name t.description)).isEmpty)
              = true
        · have hhead : serverFindSpec w m si re s = none := by
            simp [serverFindSpec, hL, hemp]
          simp [findToolsLoop, hL, List.filterMap_cons, hhead, h2, hemp,
            ih]
        · rw [Bool.not_eq_true] at hemp
          have hhead : serverFindSpec w m si re s =
              some ((filterToolsSt si ts
                { re := re, lastIndex := 0 }).1.map
                (fun t => FindEntry.tool t.name t.description)) := by
            simp [serverFindSpec, hL, hemp]
          simp [findToolsLoop, hL, List.filterMap_cons, hhead, h2, hemp,
            ih]

/-- C6: for every pattern the engine compiles (to a stateless regex, as
the `g`-free flags of `findTools` guarantee), `findTools` never
raises: it returns, for each connected server independently, exactly
what `serverFindSpec` records — so a failing server contributes a
single-element in-band error entry under its name (second conjunct),
a recorded result list is never empty (third conjunct), and one
server's failure cannot affect any other server's entry. -/
theorem findTools_isolates_failures (eng : RegexEngine) (w : World)
    (m : McpServerManager) (pattern : String) (si : SearchIn) (cs : Bool)
    (re : JsRegex)
    (hc : eng.compile pattern (if cs then "" else "i") = Except.ok re)
    (hg : re.global = false) :
    (findTools eng w m pattern si cs =
      Except.ok ((getConnectedServers m).filterMap
        (fun s => (serverFindSpec w m si re s).map (fun l => (s, l))))) ∧
    (∀ s e, listTools w m s = Except.error e →
      serverFindSpec w m si re s =
        some [FindEntry.failure ("Failed to search tools: " ++ e)]) ∧
    (∀ s l, serverFindSpec w m si re s = some l → l ≠ []) := by
  refine ⟨?_, ?_, ?_⟩
  · by_cases hemp : (getConnectedServers m).isEmpty = true
    · have hnil : getConnectedServers m = [] := by
        simpa using hemp
      rw [findTools, hnil]
      simp
    · rw [Bool.not_eq_true] at hemp
      rw [findTools]
      simp only [hemp, Bool.false_eq_true, if_false, hc]
      rw [findToolsLoop_nonglobal w m si re hg]
  · intro s e hL
    simp [serverFindSpec, hL]
  · intro s l hspec
    cases hL : listTools w m s with
    | error e =>
      simp only [serverFindSpec, hL, Option.some.injEq] at hspec
      subst hspec
      simp
    | ok tf =>
      cases tf with
      | absent => simp [serverFindSpec, hL] at hspec
      | tools ts =>
        simp only [serverFindSpec, hL] at hspec
        by_cases hemp :
            (((filterToolsSt si ts { re := re, lastIndex := 0 }).1.map
              (fun t => FindEntry.tool t.name t.description)).isEmpty)
              = true
        · simp [hemp] at hspec
        · rw [Bool.not_eq_true] at hemp
          simp only [hemp, Bool.false_eq_true, if_false,
            Option.some.injEq] at hspec
          subst hspec
          intro hnil
          rw [hnil] at hemp
          simp at hemp

/-- C6 witness: across servers A (listing two matching tools) and B
(whose listing fails), `findTools` returns without raising: the
matches of A under `A` and a single-element in-band error entry
under `B`. -/
theorem findTools_isolates_failures_witness :
    findTools literalEngine worldMixed mgrAB "file" SearchIn.both false =
      Except.ok
        [("A", [FindEntry.tool (some "ReadFile") none,
                FindEntry.tool (some "WriteFile") none]),
         ("B", [FindEntry.failure
                  ("Failed to search tools: " ++ "boom")])] := by
  have h := (findTools_isolates_failures literalEngine worldMixed mgrAB
    "file" SearchIn.both false reFile rfl rfl).1
  rw [h]
  rfl

theorem matchTool_congr (si : SearchIn) (t t2 : ToolDescriptor)
    (r : RegexMut) (h : stripSchema t = stripSchema t2) :
    matchTool si t r = matchTool si t2 r := by
  have hn0 := congrArg ToolDescriptor.name h
  have hd0 := congrArg ToolDescriptor.description h
  have hn : t.name = t2.name := hn0
  have hd : t.description = t2.description := hd0
  unfold matchTool
  rw [hn, hd]

theorem filterToolsSt_congr (si : SearchIn) :
    ∀ (ts ts2 : List ToolDescriptor) (r : RegexMut),
    ts.map stripSchema = ts2.map stripSchema →
    (filterToolsSt si ts r).1.map toSummary =
      (filterToolsSt si ts2 r).1.map toSummary ∧
    (filterToolsSt si ts r).2 = (filterToolsSt si ts2 r).2 := by
  intro ts
  induction ts with
  | nil =>
    intro ts2 r h
    cases ts2 with
    | nil => exact ⟨rfl, rfl⟩
    | cons t2 ts2 => simp at h
  | cons t ts ih =>
    intro ts2 r h
    cases ts2 with
    | nil => simp at h
    | cons t2 ts2 =>
      simp only [List.map_cons, List.cons.injEq] at h
      obtain ⟨h1, h2⟩ := h
      have hm := matchTool_congr si t t2 r h1
      have hs : toSummary t = toSummary t2 := by
        have hn0 := congrArg ToolDescriptor.name h1
        have hd0 := congrArg ToolDescriptor.description h1
        have hn : t.name = t2.name := hn0
        have hd : t.description = t2.description := hd0
        unfold toSummary
        rw [hn, hd]
      obtain ⟨ihl, ihr⟩ := ih ts2 (matchTool si t r).2 h2
      constructor
      · simp only [filterToolsSt, ← hm]
        cases hb : (matchTool si t r).1 <;> simp [hb, ihl, hs]
      · simp only [filterToolsSt, ← hm]
        exact ihr

theorem map_findEntry_of_summary {l l2 : List ToolDescriptor}
    (h : l.map toSummary = l2.map toSummary) :
    l.map (fun t => FindEntry.tool t.name t.description) =
      l2.map (fun t => FindEntry.tool t.name t.description) := by
  have hmm : ∀ lx : List ToolDescriptor,
      lx.map (fun t => FindEntry.tool t.name t.description) =
        (lx.map toSummary).map
          (fun s => FindEntry.tool s.name s.description) := by
    intro lx
    rw [List.map_map]
    rfl
  rw [hmm, hmm, h]

theorem stripResp_cases (a b : Except String ToolsField)
    (h : stripResp a = stripResp b) :
    (∃ e, a = Except.error e ∧ b = Except.error e) ∨
    (a = Except.ok ToolsField.absent ∧ b = Except.ok ToolsField.absent) ∨
    (∃ ts ts2, a = Except.ok (ToolsField.tools ts) ∧
      b = Except.ok (ToolsField.tools ts2) ∧
      ts.map stripSchema = ts2.map stripSchema) := by
  cases a with
  | error e =>
    cases b with
    | error e2 =>
      simp only [stripResp, Except.error.injEq] at h
      subst h
      exact Or.inl ⟨e, rfl, rfl⟩
    | ok f => simp [stripResp] at h
  | ok f =>
    cases b with
    | error e2 => simp [stripResp] at h
    | ok f2 =>
      cases f with
      | absent =>
        cases f2 with
        | absent => exact Or.inr (Or.inl ⟨rfl, rfl⟩)
        | tools ts2 => simp [stripResp, stripField] at h
      | tools ts =>
        cases f2 with
        | absent => simp [stripResp, stripField] at h
        | tools ts2 =>
          refine Or.inr (Or.inr ⟨ts, ts2, rfl, rfl, ?_⟩)
          simpa [stripResp, stripField] using h

theorem findToolsInServer_strip (eng : RegexEngine) (w w2 : World)
    (m : McpServerManager) (n pattern : String) (si : SearchIn)
    (cs : Bool)
    (hstrip : stripResp (w.listToolsResult n) =
      stripResp (w2.listToolsResult n)) :
    findToolsInServer eng w m n pattern si cs =
      findToolsInServer eng w2 m n pattern si cs := by
  cases hg : getClient m n with
  | error e => simp [findToolsInServer, hg]
  | ok c =>
    rcases stripResp_cases _ _ hstrip with ⟨e, ha, hb⟩ | ⟨ha, hb⟩ |
      ⟨ts, ts2, ha, hb, hmap⟩
    · simp [findToolsInServer, hg, ha, hb]
    · simp [findToolsInServer, hg, ha, hb]
    · cases hcp : eng.compile pattern (if cs then "g" else "gi") with
      | error e => simp [findToolsInServer, hg, ha, hb, hcp]
      | ok re =>
        have hcg := filterToolsSt_congr si ts ts2
          { re := re, lastIndex := 0 } hmap
        simp [findToolsInServer, hg, ha, hb, hcp, hcg.1]

theorem findToolsLoop_strip (w w2 : World) (m : McpServerManager)
    (si : SearchIn)
    (hstrip : ∀ s, stripResp (w.listToolsResult s) =
      stripResp (w2.listToolsResult s)) :
    ∀ (names : List String) (r : RegexMut),
    findToolsLoop w m si names r = findToolsLoop w2 m si names r := by
  intro names
  induction names with
  | nil => intro r; rfl
  | cons s rest ih =>
    intro r
    have hls : stripResp (listTools w m s) =
        stripResp (listTools w2 m s) := by
      unfold listTools
      cases getClient m s with
      | error e => rfl
      | ok c => exact hstrip s
    rcases stripResp_cases _ _ hls with ⟨e, ha, hb⟩ | ⟨ha, hb⟩ |
      ⟨ts, ts2, ha, hb, hmap⟩
    · simp only [findToolsLoop, ha, hb]
      rw [ih]
    · simp only [findToolsLoop, ha, hb]
      exact ih r
    · have hcg := filterToolsSt_congr si ts ts2 r hmap
      have hme := map_findEntry_of_summary hcg.1
      simp only [findToolsLoop, ha, hb]
      rw [hme, hcg.2, ih]

theorem findTools_strip (eng : RegexEngine) (w w2 : World)
    (m : McpServerManager) (pattern : String) (si : SearchIn) (cs : Bool)
    (hstrip : ∀ s, stripResp (w.listToolsResult s) =
      stripResp (w2.listToolsResult s)) :
    findTools eng w m pattern si cs = findTools eng w2 m pattern si cs := by
  by_cases hemp : (getConnectedServers m).isEmpty = true
  · simp [findTools, hemp]
  · rw [Bool.not_eq_true] at hemp
    cases hcp : eng.compile pattern (if cs then "" else "i") with
    | error e => simp [findTools, hemp, hcp]
    | ok re =>
      simp [findTools, hemp, hcp, findToolsLoop_strip w w2 m si hstrip]

/-- C7: the results of `findToolsInServer` and `findTools` carry no
input schema — they are invariant under arbitrary changes of the
reported input schemas (first two conjuncts) — while `getTool`
returns the full reported descriptor, schema included, whenever a
tool with the exact, case-sensitively compared name exists in the
live listing (third conjunct). -/
theorem find_results_schema_free (w w2 : World) (m : McpServerManager)
    (hstrip : ∀ s, stripResp (w.listToolsResult s) =
      stripResp (w2.listToolsResult s)) :
    (∀ (eng : RegexEngine) (n pattern : String) (si : SearchIn)
        (cs : Bool),
      findToolsInServer eng w m n pattern si cs =
        findToolsInServer eng w2 m n pattern si cs) ∧
    (∀ (eng : RegexEngine) (pattern : String) (si : SearchIn) (cs : Bool),
      findTools eng w m pattern si cs =
        findTools eng w2 m pattern si cs) ∧
    (∀ (n tn : String) (c : Client) (ts : List ToolDescriptor)
        (t : ToolDescriptor),
      mapGet m.clients n = some c →
      w.listToolsResult n = Except.ok (ToolsField.tools ts) →
      ts.find? (fun x => x.name == some tn) = some t →
      getTool w m n tn = Except.ok t) := by
  refine ⟨?_, ?_, ?_⟩
  · intro eng n pattern si cs
    exact findToolsInServer_strip eng w w2 m n pattern si cs (hstrip n)
  · intro eng pattern si cs
    exact findTools_strip eng w w2 m pattern si cs hstrip
  · intro n tn c ts t hc hr hf
    simp [getTool, getClient, hc, hr, hf]

/-- C7 witness: two worlds differing only in the reported schema give
the same `findToolsInServer` result, and `getTool` returns the full
descriptor including the schema string `A`. -/
theorem find_results_schema_free_witness :
    findToolsInServer literalEngine worldSchemaA mgrOne "srv" "file"
      SearchIn.both false =
      findToolsInServer literalEngine worldSchemaB mgrOne "srv" "file"
        SearchIn.both false ∧
    getTool worldSchemaA mgrOne "srv" "readFile" =
      Except.ok (fileToolWith (some (Json.str "A"))) := by
  have h := find_results_schema_free worldSchemaA worldSchemaB mgrOne
    (fun s => rfl)
  exact ⟨h.1 literalEngine "srv" "file" SearchIn.both false,
    h.2.2 "srv" "readFile" (clientFor "srv")
      [fileToolWith (some (Json.str "A"))]
      (fileToolWith (some (Json.str "A"))) rfl rfl rfl⟩

end McpHub
